import Mathlib

/-!
# Verification of the OMERewriter plane-indexing and metadata-rewriting core

Shallow embedding of the `OMETiffImage` wrapper class (`src/ometiffimage.cpp`
plus its header): the dimension-interpretation state, the interleaving
reinterpretation policy, the `(z, c, t) -> plane` indexer, the
`setInterleavedChannelCount` validation logic, the `close`/`open` lifecycle,
the plane-write ordering of `saveWithMetadata`, and the pixel-buffer
normalization visitor.

The underlying `ome-files` decoder library is external to the repository; it
is modelled abstractly: its dimension-order-aware index function is an
uninterpreted function parameter, its series/resolution cursor is an explicit
two-field state threaded through the operations that mutate it, and decoder
calls that may throw are modelled by a boolean success oracle.

Machine integers (`ome::files::dimension_size_type`, i.e. `size_t`) are
modelled as `Nat`: all quantities involved (dimension sizes, plane counts,
plane indices) are nonnegative and far from 2^64 in every reachable state, and
no arithmetic in the modelled code can underflow (the only subtraction occurs
on pixel values guarded by `max > min`).  Pixel values of the float/double
normalization paths are modelled as rationals; the `static_cast<uint16_t>`
truncation of a nonnegative in-range value is modelled as `Int.floor`.
-/

namespace OMERewriter

/-- The decoder's series/resolution cursor (`FormatReader` mutable state):
a single piece of mutable state shared by all read/index operations.
`setSeries`/`setResolution` are modelled as plain field updates. -/
structure ReaderState where
  series : Nat
  resolution : Nat
deriving DecidableEq, Repr

/-- The interpretation state of `OMETiffImage::Private` (src/ometiffimage.cpp,
lines 31-63): the fields of the `Private` class that the modelled operations
read and write.  `readerOpen` models `reader != nullptr`; the pixel type tag
is modelled as a plain `Nat` code since only its propagation matters here. -/
structure ImageState where
  readerOpen : Bool
  currentFilename : String
  isOmeTiff : Bool
  series : Nat
  resolution : Nat
  interleavedChannels : Nat
  rawSizeX : Nat
  rawSizeY : Nat
  rawSizeZ : Nat
  rawSizeT : Nat
  rawSizeC : Nat
  rawImageCount : Nat
  rawRGBChannelCount : Nat
  cachedPixelType : Nat
  sizeX : Nat
  sizeY : Nat
  sizeZ : Nat
  sizeT : Nat
  sizeC : Nat
  imageCount : Nat
  rgbChannelCount : Nat
deriving DecidableEq, Repr

/-- `OMETiffImage::Private::applyInterleavingInterpretation`
(src/ometiffimage.cpp, lines 87-117): recompute the effective dimensions from
the raw dimensions and the interpretation state. -/
def applyInterleavingInterpretation (d : ImageState) : ImageState :=
  let d := { d with
    sizeX := d.rawSizeX
    sizeY := d.rawSizeY
    rgbChannelCount := d.rawRGBChannelCount }
  if d.interleavedChannels > 1 ∧ ¬ d.isOmeTiff then
    { d with
      sizeC := d.interleavedChannels
      sizeZ := d.rawImageCount / d.interleavedChannels
      sizeT := 1
      imageCount := d.rawImageCount }
  else
    { d with
      sizeZ := d.rawSizeZ
      sizeT := d.rawSizeT
      sizeC := d.rawSizeC
      imageCount := d.rawImageCount }

/-- `OMETiffImage::Private::getPlaneIndex` (src/ometiffimage.cpp, lines
129-146), returning both the computed plane index and the decoder cursor state
after the call.  `ni` is the decoder's native dimension-order-aware
`FormatReader::getIndex`, uninterpreted, as a function of the series and
resolution the code sets before calling it.  In the non-interleaved branch
the code saves `oldSeries = reader->getSeries()`, sets the image's
series/resolution, queries the index and then calls `setSeries(oldSeries)`
(the prior resolution is never read). -/
def getPlaneIndexRun (d : ImageState) (ni : Nat → Nat → Nat → Nat → Nat → Nat)
    (cur : ReaderState) (z c t : Nat) : Nat × ReaderState :=
  if d.interleavedChannels > 1 ∧ ¬ d.isOmeTiff then
    (z * d.interleavedChannels + c, cur)
  else
    let oldSeries := cur.series
    let cur1 : ReaderState := { series := d.series, resolution := d.resolution }
    let index := ni d.series d.resolution z c t
    ((index, { cur1 with series := oldSeries }))

/-- The plane index computed by `getPlaneIndex`, as a value (the returned
index does not depend on the incoming cursor). -/
def getPlaneIndexVal (d : ImageState) (ni : Nat → Nat → Nat → Nat → Nat → Nat)
    (z c t : Nat) : Nat :=
  (getPlaneIndexRun d ni ⟨0, 0⟩ z c t).1

/-- Public `OMETiffImage::getIndex` (src/ometiffimage.cpp, lines 318-324):
returns 0 when no file is open, otherwise delegates to
`Private::getPlaneIndex`. -/
def getIndexRun (d : ImageState) (ni : Nat → Nat → Nat → Nat → Nat → Nat)
    (cur : ReaderState) (z c t : Nat) : Nat × ReaderState :=
  if ¬ d.readerOpen then (0, cur)
  else getPlaneIndexRun d ni cur z c t

/-- The error message of the native-OME rejection branch of
`setInterleavedChannelCount` (src/ometiffimage.cpp, line 247). -/
def omeTiffRejectMsg : String :=
  "Cannot set interleaved channel count for OME-TIFF files!"

/-- The error message of the non-divisor rejection branch of
`setInterleavedChannelCount` (src/ometiffimage.cpp, lines 253-256), with the
two `.arg` substitutions applied. -/
def nonDivisorMsg (channelCount rawImageCount : Nat) : String :=
  "Interleaved channel count " ++ toString channelCount
    ++ " does not divide evenly into image count " ++ toString rawImageCount

/-- `OMETiffImage::setInterleavedChannelCount` (src/ometiffimage.cpp, lines
240-266).  Clamps the requested count to a minimum of 1, rejects native
OME-TIFF files, rejects counts that do not divide the raw image count, and on
success stores the count and recomputes the effective dimensions.  The
`std::expected<bool, QString>` return is modelled as `Except String`; an
error return leaves the state untouched (the C++ returns before any
mutation). -/
def setInterleavedChannelCount (d : ImageState) (channelCount : Nat) :
    Except String ImageState :=
  let channelCount := if channelCount < 1 then 1 else channelCount
  if d.isOmeTiff then
    .error omeTiffRejectMsg
  else if d.rawImageCount > 0 ∧ channelCount > 1 ∧ d.rawImageCount % channelCount ≠ 0 then
    .error (nonDivisorMsg channelCount d.rawImageCount)
  else
    .ok (applyInterleavingInterpretation { d with interleavedChannels := channelCount })

/-- The caller-visible state after `setInterleavedChannelCount`: the new state
on success, the unchanged state on error. -/
def setInterleavedChannelCountState (d : ImageState) (channelCount : Nat) : ImageState :=
  match setInterleavedChannelCount d channelCount with
  | .ok d' => d'
  | .error _ => d

/-- `OMETiffImage::close` (src/ometiffimage.cpp, lines 207-223): closes the
reader, clears the stored filename, resets the interleaved channel count to 1
and zeroes the raw and effective X/Y/Z/T/C sizes and both image counts.  (The
RGB channel counts, pixel type tag, format flag and series/resolution fields
are not touched by the C++ and are left alone here as well.) -/
def close (d : ImageState) : ImageState :=
  { d with
    readerOpen := false
    currentFilename := ""
    interleavedChannels := 1
    rawSizeX := 0
    rawSizeY := 0
    rawSizeZ := 0
    rawSizeT := 0
    rawSizeC := 0
    rawImageCount := 0
    sizeX := 0
    sizeY := 0
    sizeZ := 0
    sizeT := 0
    sizeC := 0
    imageCount := 0 }

/-- The dimension values the decoder reports for the current series and
resolution (queried by `updateCachedDimensions`). -/
structure DecoderReport where
  sizeX : Nat
  sizeY : Nat
  sizeZ : Nat
  sizeT : Nat
  effectiveSizeC : Nat
  imageCount : Nat
  rgbChannelCount : Nat
  pixelType : Nat
deriving DecidableEq, Repr

/-- The cache-update part of `OMETiffImage::Private::updateCachedDimensions`
(src/ometiffimage.cpp, lines 64-85): store the decoder-reported raw values
and recompute the effective dimensions.  The decoder-cursor save/restore of
the same function is modelled separately by `updateCachedDimensionsCursor`. -/
def updateCachedDimensions (d : ImageState) (rep : DecoderReport) : ImageState :=
  applyInterleavingInterpretation
    { d with
      rawSizeX := rep.sizeX
      rawSizeY := rep.sizeY
      rawSizeZ := rep.sizeZ
      rawSizeT := rep.sizeT
      rawSizeC := rep.effectiveSizeC
      rawImageCount := rep.imageCount
      rawRGBChannelCount := rep.rgbChannelCount
      cachedPixelType := rep.pixelType }

/-- The successful path of `OMETiffImage::open` (src/ometiffimage.cpp, lines
160-205): it begins by calling `close()`, creates the reader chosen by the
filename-extension check (`isOme`), opens the file, records the filename,
resets series and resolution to 0 and refreshes the cached dimensions with
what the decoder reports (`rep`).  The failure paths (missing file, decoder
exception) return `false` before the dimension refresh and are not needed by
the claims settled here. -/
def openFileSuccess (d : ImageState) (filename : String) (isOme : Bool)
    (rep : DecoderReport) : ImageState :=
  let d0 := close d
  let d1 := { d0 with
    readerOpen := true
    isOmeTiff := isOme
    currentFilename := filename
    series := 0
    resolution := 0 }
  updateCachedDimensions d1 rep

/-- Decoder-cursor effect of `OMETiffImage::readPlaneByIndex`
(src/ometiffimage.cpp, lines 601-627).  `readOk planeIndex` tells whether
`reader->openBytes(planeIndex, buf)` succeeds; when it throws, the `catch`
block returns an empty image without ever reaching the
`setSeries(oldSeries)` restore, so the cursor stays at the values the
function set.  Returns the final cursor and whether a plane was produced. -/
def readPlaneByIndexCursor (d : ImageState) (readOk : Nat → Bool)
    (cur : ReaderState) (planeIndex : Nat) : ReaderState × Bool :=
  if ¬ d.readerOpen then (cur, false)
  else
    let oldSeries := cur.series
    let cur1 : ReaderState := { series := d.series, resolution := d.resolution }
    if readOk planeIndex then ({ cur1 with series := oldSeries }, true)
    else (cur1, false)

/-- Decoder-cursor effect of `OMETiffImage::Private::updateCachedDimensions`
(src/ometiffimage.cpp, lines 64-85): saves `getSeries()`, sets its own series
and resolution, queries the dimensions, restores the saved series.  If a
dimension query throws (`queryOk = false`), the exception propagates (to
`open`'s catch block) without any restore. -/
def updateCachedDimensionsCursor (d : ImageState) (queryOk : Bool)
    (cur : ReaderState) : ReaderState × Bool :=
  if ¬ d.readerOpen then (cur, true)
  else
    let oldSeries := cur.series
    let cur1 : ReaderState := { series := d.series, resolution := d.resolution }
    if queryOk then ({ cur1 with series := oldSeries }, true)
    else (cur1, false)

/-- The plane-write loop of `OMETiffImage::saveWithMetadata`
(src/ometiffimage.cpp, lines 1056-1084), as the list of
`(source plane, output plane)` pairs in the order the code performs
`openBytes(src)` / `saveBytes(dst)`.  In the interleaved raw-TIFF branch the
code runs `for t. for c. for z.` with a mutable `outPlane` counter starting
at 0 and incremented after each write; the fold state `(outPlane, writes)`
mirrors that counter and the accumulated writes.  Otherwise every physical
plane `0..readerImageCount-1` is copied to the same output index.
`readerImageCount` is `reader->getImageCount()` as queried in the else
branch. -/
def planeWriteOps (d : ImageState) (ni : Nat → Nat → Nat → Nat → Nat → Nat)
    (readerImageCount : Nat) : List (Nat × Nat) :=
  if ¬ d.isOmeTiff ∧ d.interleavedChannels > 1 then
    ((List.range d.sizeT).foldl (fun st t =>
      (List.range d.sizeC).foldl (fun st c =>
        (List.range d.sizeZ).foldl (fun st z =>
          (st.1 + 1, st.2 ++ [(getPlaneIndexVal d ni z c t, st.1)])) st) st)
      ((0 : Nat), ([] : List (Nat × Nat)))).2
  else
    (List.range readerImageCount).foldl (fun acc plane => acc ++ [(plane, plane)]) []

/-- The `(z, c, t)` coordinate triples in the iteration order of the
interleaved save branch: `t` outermost, then `c`, with `z` varying fastest. -/
def tczTriples (d : ImageState) : List (Nat × Nat × Nat) :=
  (List.range d.sizeT).flatMap fun t =>
    (List.range d.sizeC).flatMap fun c =>
      (List.range d.sizeZ).map fun z => (z, c, t)

/-- Modelled from the spec: the progress-reporting plane-write loop of the
`saveWithMetadata(outputPath, metadata, progressCallback)` overload.  The
header declares this overload and its callers pass a cancellation callback,
but the implementation of the progress-reporting loop is not among the
repository source files available here; per the spec, "after each plane
write, invoke `progressCallback(current, total)`; if it returns false, treat
as a user cancellation — the write must stop promptly, partial output must
not silently claim success".  `planes` is the list of source planes still to
write, `written` the number of planes already written; the result is the
list of planes actually written and `true` for success / `false` for a
cancelled (failed) write. -/
def writePlanesLoop (cb : Nat → Nat → Bool) (total : Nat) :
    List Nat → Nat → List Nat × Bool
  | [], _ => ([], true)
  | p :: rest, written =>
    if cb (written + 1) total then
      let r := writePlanesLoop cb total rest (written + 1)
      (p :: r.1, r.2)
    else ([p], false)

/-- Modelled from the spec: a whole progress-reporting save run over a list
of planes in write order. -/
def saveWithProgress (cb : Nat → Nat → Bool) (planes : List Nat) : List Nat × Bool :=
  writePlanesLoop cb planes.length planes 0

/-- The `RawImage` display buffer (header `ometiffimage.h`), with `data`
holding one entry per output pixel value. -/
structure RawImageModel where
  data : List Nat
  width : Nat
  height : Nat
  channels : Nat
  bytesPerChannel : Nat
deriving DecidableEq, Repr

/-- `PixelBufferToRawImageVisitor::operator()(uint16_t)` together with
`copyData` (src/ometiffimage.cpp, lines 352-357 and 461-470): 16-bit unsigned
planes are copied byte-identically (`memcpy` of `width*height*2` bytes); no
normalization is applied. -/
def convertUint16Plane (w h : Nat) (src : List Nat) : RawImageModel :=
  { data := src.take (w * h)
    width := w
    height := h
    channels := 1
    bytesPerChannel := 2 }

/-- `PixelBufferToRawImageVisitor::operator()(int16_t)`
(src/ometiffimage.cpp, lines 379-395): each 16-bit signed pixel is remapped
by `static_cast<uint16_t>(static_cast<int>(src[i]) + 32768)`; the `uint16_t`
cast is the reduction modulo 2^16. -/
def convertInt16Plane (w h : Nat) (src : List Int) : RawImageModel :=
  { data := (src.take (w * h)).map fun x => ((x + 32768) % 65536).toNat
    width := w
    height := h
    channels := 1
    bytesPerChannel := 2 }

/-- `minVal` as computed by the normalization functions
(src/ometiffimage.cpp, e.g. lines 540-546): start from `src[0]` and scan the
rest of the plane. -/
def planeMin : List ℚ → ℚ
  | [] => 0
  | x :: xs => xs.foldl min x

/-- `maxVal` as computed by the normalization functions
(src/ometiffimage.cpp, e.g. lines 540-546). -/
def planeMax : List ℚ → ℚ
  | [] => 0
  | x :: xs => xs.foldl max x

/-- The shared min/max normalization of
`PixelBufferToRawImageVisitor::normalizeToUint16` /
`normalizeSignedToUint16` / `normalizeFloatToUint16` /
`normalizeDoubleToUint16` (src/ometiffimage.cpp, lines 472-585), which differ
only in the source element type: compute the plane minimum and maximum; if
`max > min`, emit `static_cast<uint16_t>((src[i] - min) * (65535 / (max -
min)))` for every pixel; otherwise (`max == min`, constant plane) `memset`
the whole output to zero.  Machine float/double values are modelled as exact
rationals and the truncating cast of the nonnegative result as `Int.floor`. -/
def normalizeMinMaxToUint16 (src : List ℚ) : List Int :=
  let minVal := planeMin src
  let maxVal := planeMax src
  if maxVal > minVal then
    let scale : ℚ := 65535 / (maxVal - minVal)
    src.map fun x => ⌊(x - minVal) * scale⌋
  else
    List.replicate src.length 0

/-- The member-initializer state of a fresh `OMETiffImage::Private`
(src/ometiffimage.cpp, lines 31-63): no reader, empty filename,
`isOmeTiff = true`, series/resolution 0, interleaved channel count 1, all
cached dimensions 0. -/
def initialState : ImageState :=
  { readerOpen := false
    currentFilename := ""
    isOmeTiff := true
    series := 0
    resolution := 0
    interleavedChannels := 1
    rawSizeX := 0
    rawSizeY := 0
    rawSizeZ := 0
    rawSizeT := 0
    rawSizeC := 0
    rawImageCount := 0
    rawRGBChannelCount := 0
    cachedPixelType := 0
    sizeX := 0
    sizeY := 0
    sizeZ := 0
    sizeT := 0
    sizeC := 0
    imageCount := 0
    rgbChannelCount := 0 }

/-- Decoder report for the spec's concrete scenario: a raw TIFF with 168
physical planes (the generic TIFF reader reports them along one axis; the
spec treats the raw Z/T split as unknown/ignored). -/
def report168 : DecoderReport :=
  { sizeX := 512
    sizeY := 512
    sizeZ := 1
    sizeT := 168
    effectiveSizeC := 1
    imageCount := 168
    rgbChannelCount := 1
    pixelType := 0 }

/-- The 168-plane raw TIFF of the spec's concrete scenario, freshly opened. -/
def rawTiff168 : ImageState :=
  openFileSuccess initialState "scan.tif" false report168

/-- The 168-plane raw TIFF after `setInterleavedChannelCount(2)`. -/
def rawTiff168v2 : ImageState :=
  setInterleavedChannelCountState rawTiff168 2

/-- Decoder report for a small raw TIFF with 2 physical planes. -/
def report2 : DecoderReport :=
  { sizeX := 4
    sizeY := 4
    sizeZ := 1
    sizeT := 2
    effectiveSizeC := 1
    imageCount := 2
    rgbChannelCount := 1
    pixelType := 0 }

/-- A freshly opened raw TIFF with 2 physical planes. -/
def rawTiff2 : ImageState :=
  openFileSuccess initialState "two.tif" false report2

/-- The 2-plane raw TIFF after `setInterleavedChannelCount(1)` (which
succeeds and leaves the plane lookup on the decoder's native path). -/
def rawTiff2after1 : ImageState :=
  setInterleavedChannelCountState rawTiff2 1

/-- A decoder environment whose native `getIndex` always answers 0 (a legal
instantiation of the uninterpreted external decoder). -/
def niZero : Nat → Nat → Nat → Nat → Nat → Nat :=
  fun _ _ _ _ _ => 0

/-- A freshly opened native OME-TIFF (non-interleaved indexing path). -/
def omeTiffOpenState : ImageState :=
  openFileSuccess initialState "img.ome.tif" true report2

/-! ## Helper lemmas -/

/-- In the interleaved branch the indexer is the closed-form product formula
and the decoder cursor is untouched. -/
theorem getPlaneIndexRun_interleaved (d : ImageState)
    (ni : Nat → Nat → Nat → Nat → Nat → Nat) (cur : ReaderState) (z c t : Nat)
    (h : d.interleavedChannels > 1 ∧ ¬ d.isOmeTiff) :
    getPlaneIndexRun d ni cur z c t = (z * d.interleavedChannels + c, cur) := by
  simp [getPlaneIndexRun, h]

/-- A fold that appends one output pair per element while counting emits the
enumerated list. -/
theorem foldl_emit {α : Type} (f : α → Nat) (l : List α) (k : Nat)
    (acc : List (Nat × Nat)) :
    l.foldl (fun st a => (st.1 + 1, st.2 ++ [(f a, st.1)])) (k, acc) =
      (k + l.length, acc ++ (l.enumFrom k).map fun p => (f p.2, p.1)) := by
  induction l generalizing k acc with
  | nil => simp
  | cons a l ih =>
    simp only [List.foldl_cons, List.enumFrom, List.map_cons, ih]
    refine Prod.ext ?_ ?_
    · simp
      omega
    · simp

/-- Folding over a `flatMap` is the nested fold. -/
theorem foldl_flatMap_eq {α β γ : Type _} (f : β → α → β) (g : γ → List α)
    (l : List γ) (init : β) :
    (l.flatMap g).foldl f init = l.foldl (fun st x => (g x).foldl f st) init := by
  induction l generalizing init with
  | nil => simp
  | cons a l ih => simp [List.foldl_append, ih]

/-- Appending singletons in a fold is `map`. -/
theorem foldl_append_singleton {α β : Type _} (g : α → β) (l : List α) (acc : List β) :
    l.foldl (fun acc a => acc ++ [g a]) acc = acc ++ l.map g := by
  induction l generalizing acc with
  | nil => simp
  | cons a l ih => simp [ih]

/-- The modelled write loop stops at the first plane whose callback answers
false, having written exactly the planes up to and including that one. -/
theorem writePlanesLoop_stops (cb : Nat → Nat → Bool) (total : Nat) :
    ∀ (planes : List Nat) (written k : Nat), k < planes.length →
      cb (written + k + 1) total = false →
      (∀ j, j < k → cb (written + j + 1) total = true) →
      writePlanesLoop cb total planes written = (planes.take (k + 1), false) := by
  intro planes
  induction planes with
  | nil =>
    intro written k hk _ _
    simp at hk
  | cons p rest ih =>
    intro written k hk hfalse htrue
    cases k with
    | zero =>
      have h0 : cb (written + 1) total = false := by simpa using hfalse
      simp [writePlanesLoop, h0]
    | succ k =>
      have h0 : cb (written + 1) total = true := by
        have := htrue 0 (Nat.succ_pos k)
        simpa using this
      have hrec := ih (written + 1) k (by simpa using hk)
        (by rw [show written + 1 + k + 1 = written + (k + 1) + 1 by omega]; exact hfalse)
        (fun j hj => by
          rw [show written + 1 + j + 1 = written + (j + 1) + 1 by omega]
          exact htrue (j + 1) (by omega))
      simp [writePlanesLoop, h0, hrec]

/-- Scanning a constant list with `min` starting at the constant stays at the
constant. -/
theorem foldl_min_const (q : ℚ) : ∀ xs : List ℚ, (∀ x ∈ xs, x = q) →
    xs.foldl min q = q := by
  intro xs
  induction xs with
  | nil => intro _; rfl
  | cons y ys ih =>
    intro h
    have hy : y = q := h y (List.mem_cons_self _ _)
    simp [hy, ih fun x hx => h x (List.mem_cons_of_mem y hx)]

/-- Scanning a constant list with `max` starting at the constant stays at the
constant. -/
theorem foldl_max_const (q : ℚ) : ∀ xs : List ℚ, (∀ x ∈ xs, x = q) →
    xs.foldl max q = q := by
  intro xs
  induction xs with
  | nil => intro _; rfl
  | cons y ys ih =>
    intro h
    have hy : y = q := h y (List.mem_cons_self _ _)
    simp [hy, ih fun x hx => h x (List.mem_cons_of_mem y hx)]

/-! ## Claim theorems -/

/-- C1: the effective dimensions are the stated pure function of the raw
dimensions and the interpretation state: when the interleaved channel count
exceeds 1 and the file is not native OME, `sizeC` is the interleaved channel
count, `sizeZ` is `rawImageCount / interleavedChannelCount`, `sizeT` is 1 and
`imageCount` is `rawImageCount`; otherwise `sizeZ`/`sizeT`/`sizeC`/`imageCount`
equal the raw values field-for-field; in both cases `imageCount` equals
`rawImageCount`; and on the freshly opened 168-plane raw TIFF,
`setInterleavedChannelCount(2)` yields `sizeC = 2`, `sizeZ = 84`, `sizeT = 1`,
`imageCount = 168`. -/
theorem effectiveDimensions_from_raw (d : ImageState) :
    ((d.interleavedChannels > 1 ∧ ¬ d.isOmeTiff) →
      (applyInterleavingInterpretation d).sizeC = d.interleavedChannels ∧
      (applyInterleavingInterpretation d).sizeZ = d.rawImageCount / d.interleavedChannels ∧
      (applyInterleavingInterpretation d).sizeT = 1 ∧
      (applyInterleavingInterpretation d).imageCount = d.rawImageCount) ∧
    (¬ (d.interleavedChannels > 1 ∧ ¬ d.isOmeTiff) →
      (applyInterleavingInterpretation d).sizeZ = d.rawSizeZ ∧
      (applyInterleavingInterpretation d).sizeT = d.rawSizeT ∧
      (applyInterleavingInterpretation d).sizeC = d.rawSizeC ∧
      (applyInterleavingInterpretation d).imageCount = d.rawImageCount) ∧
    (applyInterleavingInterpretation d).imageCount = d.rawImageCount ∧
    rawTiff168v2.sizeC = 2 ∧ rawTiff168v2.sizeZ = 84 ∧
    rawTiff168v2.sizeT = 1 ∧ rawTiff168v2.imageCount = 168 := by
  refine ⟨?_, ?_, ?_, by decide, by decide, by decide, by decide⟩
  · intro h
    simp [applyInterleavingInterpretation, h]
  · intro h
    simp only [applyInterleavingInterpretation]
    split
    · exact absurd (by assumption) h
    · simp
  · simp only [applyInterleavingInterpretation]
    split <;> rfl

/-- C1 witness: the theorem applied on the interleaved 168-plane state and on
a freshly opened native OME-TIFF. -/
theorem effectiveDimensions_from_raw_witness :
    (applyInterleavingInterpretation rawTiff168v2).sizeC = rawTiff168v2.interleavedChannels ∧
    (applyInterleavingInterpretation omeTiffOpenState).sizeZ = omeTiffOpenState.rawSizeZ :=
  ⟨((effectiveDimensions_from_raw rawTiff168v2).1 (by decide)).1,
   ((effectiveDimensions_from_raw omeTiffOpenState).2.1 (by decide)).1⟩

/-- C2: while the interleaved channel count exceeds 1 and the open file is
not native OME, `getIndex(z, c, t)` returns `z * interleavedChannelCount + c`
and ignores `t`; otherwise it returns the decoder's native
dimension-order-aware index at the current series/resolution; and in the
168-plane scenario with 2 interleaved channels, `getIndex(5, 1, 0) = 11`. -/
theorem getIndex_formula (d : ImageState) (ni : Nat → Nat → Nat → Nat → Nat → Nat)
    (cur : ReaderState) (z c t t2 : Nat) (hopen : d.readerOpen = true) :
    (d.interleavedChannels > 1 ∧ ¬ d.isOmeTiff →
      (getIndexRun d ni cur z c t).1 = z * d.interleavedChannels + c) ∧
    (d.interleavedChannels > 1 ∧ ¬ d.isOmeTiff →
      (getIndexRun d ni cur z c t).1 = (getIndexRun d ni cur z c t2).1) ∧
    (¬ (d.interleavedChannels > 1 ∧ ¬ d.isOmeTiff) →
      (getIndexRun d ni cur z c t).1 = ni d.series d.resolution z c t) ∧
    (getIndexRun rawTiff168v2 ni ⟨0, 0⟩ 5 1 0).1 = 11 := by
  refine ⟨?_, ?_, ?_, ?_⟩
  · intro h
    simp [getIndexRun, getPlaneIndexRun, hopen, h]
  · intro h
    simp [getIndexRun, getPlaneIndexRun, hopen, h]
  · intro h
    rw [getIndexRun, if_neg (by simp [hopen]), getPlaneIndexRun, if_neg h]
  · have h1 : rawTiff168v2.readerOpen = true := by decide
    have h2 : rawTiff168v2.interleavedChannels = 2 := by decide
    have h3 : rawTiff168v2.isOmeTiff = false := by decide
    simp [getIndexRun, getPlaneIndexRun, h1, h2, h3]

/-- C2 witness: the formula on the interleaved 168-plane state and the native
delegation on an open OME-TIFF. -/
theorem getIndex_formula_witness :
    (getIndexRun rawTiff168v2 niZero ⟨0, 0⟩ 5 1 0).1 =
      5 * rawTiff168v2.interleavedChannels + 1 ∧
    (getIndexRun omeTiffOpenState niZero ⟨0, 0⟩ 1 0 0).1 =
      niZero omeTiffOpenState.series omeTiffOpenState.resolution 1 0 0 :=
  ⟨(getIndex_formula rawTiff168v2 niZero ⟨0, 0⟩ 5 1 0 0 (by decide)).1 (by decide),
   (getIndex_formula omeTiffOpenState niZero ⟨0, 0⟩ 1 0 0 0 (by decide)).2.2.1 (by decide)⟩

/-- C3 (amended to interleaved counts of at least 2): for every non-native-OME
state whose raw image count is positive and divisible by `n ≥ 2`,
`setInterleavedChannelCount(n)` succeeds and afterwards
`(z, c) ↦ getPlaneIndex(z, c, t)` restricted to
`z < rawImageCount / n`, `c < n` is a bijection onto
`[0, rawImageCount)`, for any fixed `t` and any decoder behaviour. -/
theorem interleaving_bijection (d : ImageState) (ni : Nat → Nat → Nat → Nat → Nat → Nat)
    (n t : Nat) (h2 : 2 ≤ n) (home : d.isOmeTiff = false)
    (hpos : 0 < d.rawImageCount) (hdvd : n ∣ d.rawImageCount) :
    setInterleavedChannelCount d n = .ok (setInterleavedChannelCountState d n) ∧
    Set.BijOn (fun p : Nat × Nat =>
        getPlaneIndexVal (setInterleavedChannelCountState d n) ni p.1 p.2 t)
      (Set.Iio (d.rawImageCount / n) ×ˢ Set.Iio n) (Set.Iio d.rawImageCount) := by
  have hn0 : 0 < n := by omega
  have hmod : d.rawImageCount % n = 0 := by
    obtain ⟨k, hk⟩ := hdvd
    simp [hk, Nat.mul_mod_right]
  have hclam : ¬ n < 1 := by omega
  have hok : setInterleavedChannelCount d n =
      .ok (applyInterleavingInterpretation { d with interleavedChannels := n }) := by
    simp only [setInterleavedChannelCount, hclam, if_false]
    rw [if_neg (by simp [home]), if_neg (by simp [hmod])]
  have hstate : setInterleavedChannelCountState d n =
      applyInterleavingInterpretation { d with interleavedChannels := n } := by
    simp [setInterleavedChannelCountState, hok]
  have hic : (applyInterleavingInterpretation
      { d with interleavedChannels := n }).interleavedChannels = n := by
    simp only [applyInterleavingInterpretation]
    split <;> rfl
  have hio : (applyInterleavingInterpretation
      { d with interleavedChannels := n }).isOmeTiff = false := by
    simp only [applyInterleavingInterpretation]
    split <;> simpa using home
  refine ⟨by rw [hok, hstate], ?_⟩
  have hkey : ∀ z c : Nat,
      getPlaneIndexVal (setInterleavedChannelCountState d n) ni z c t = z * n + c := by
    intro z c
    rw [hstate]
    have hrun := getPlaneIndexRun_interleaved
      (applyInterleavingInterpretation { d with interleavedChannels := n }) ni ⟨0, 0⟩ z c t
      ⟨by rw [hic]; omega, by rw [hio]; simp⟩
    simp [getPlaneIndexVal, hrun, hic]
  refine ⟨?_, ?_, ?_⟩
  · rintro ⟨z, c⟩ ⟨hz, hc⟩
    simp only [Set.mem_Iio] at hz hc ⊢
    rw [hkey]
    have h1 : (z + 1) * n ≤ d.rawImageCount / n * n := Nat.mul_le_mul_right n hz
    rw [Nat.div_mul_cancel hdvd] at h1
    have h3 : (z + 1) * n = z * n + n := by ring
    rw [h3] at h1
    exact Nat.lt_of_lt_of_le (Nat.add_lt_add_left hc _) h1
  · rintro ⟨z1, c1⟩ ⟨hz1, hc1⟩ ⟨z2, c2⟩ ⟨hz2, hc2⟩ hf
    simp only [Set.mem_Iio] at hz1 hc1 hz2 hc2
    simp only [hkey] at hf
    have hcc : c1 = c2 := by
      have e1 : (z1 * n + c1) % n = c1 := by
        rw [Nat.add_comm, Nat.add_mul_mod_self_right, Nat.mod_eq_of_lt hc1]
      have e2 : (z2 * n + c2) % n = c2 := by
        rw [Nat.add_comm, Nat.add_mul_mod_self_right, Nat.mod_eq_of_lt hc2]
      rw [hf, e2] at e1
      exact e1.symm
    subst hcc
    have hzz : z1 = z2 := by
      have h4 : z1 * n = z2 * n := Nat.add_right_cancel hf
      exact Nat.eq_of_mul_eq_mul_right hn0 h4
    subst hzz
    rfl
  · intro k hk
    simp only [Set.mem_Iio] at hk
    refine ⟨(k / n, k % n), ⟨Set.mem_Iio.mpr (Nat.div_lt_div_of_lt_of_dvd hdvd hk),
      Set.mem_Iio.mpr (Nat.mod_lt _ hn0)⟩, ?_⟩
    simp only [hkey]
    rw [Nat.mul_comm (k / n) n]
    exact Nat.div_add_mod k n

/-- C3 witness: the bijection on the 168-plane raw TIFF with 2 interleaved
channels. -/
theorem interleaving_bijection_witness :
    setInterleavedChannelCount rawTiff168 2 =
      .ok (setInterleavedChannelCountState rawTiff168 2) ∧
    Set.BijOn (fun p : Nat × Nat =>
        getPlaneIndexVal (setInterleavedChannelCountState rawTiff168 2) niZero p.1 p.2 0)
      (Set.Iio (rawTiff168.rawImageCount / 2) ×ˢ Set.Iio 2)
      (Set.Iio rawTiff168.rawImageCount) :=
  interleaving_bijection rawTiff168 niZero 2 0 (by norm_num) (by decide) (by decide)
    (by decide)

/-- C3 counterexample: at `n = 1` (allowed by the claim) the indexer
delegates to the external decoder's native index, which the repository's code
does not constrain; with a decoder whose native index ignores the
coordinates, `setInterleavedChannelCount(1)` on a 2-plane raw TIFF succeeds
and the restricted map is not a bijection onto `[0, 2)`. -/
theorem interleaving_bijection_counterexample :
    setInterleavedChannelCount rawTiff2 1 = .ok rawTiff2after1 ∧
    ¬ Set.BijOn (fun p : Nat × Nat =>
        getPlaneIndexVal rawTiff2after1 niZero p.1 p.2 0)
      (Set.Iio (rawTiff2.rawImageCount / 1) ×ˢ Set.Iio 1)
      (Set.Iio rawTiff2.rawImageCount) := by
  refine ⟨rfl, ?_⟩
  intro hbij
  have h1 : (1 : Nat) ∈ Set.Iio rawTiff2.rawImageCount := by
    simp [show rawTiff2.rawImageCount = 2 from by decide]
  obtain ⟨p, hp, hfp⟩ := hbij.surjOn h1
  have hfp2 : getPlaneIndexVal rawTiff2after1 niZero p.1 p.2 0 = 1 := hfp
  have hz : getPlaneIndexVal rawTiff2after1 niZero p.1 p.2 0 = 0 := by
    have hic : rawTiff2after1.interleavedChannels = 1 := by decide
    simp [getPlaneIndexVal, getPlaneIndexRun, hic, niZero]
  rw [hz] at hfp2
  exact absurd hfp2 (by decide)

/-- C4: after clamping the requested count to a minimum of 1,
`setInterleavedChannelCount` always fails with the unsupported-operation
message on a native OME-TIFF; on a raw TIFF it fails with the
invalid-argument message exactly when the raw image count is positive and not
divisible by the clamped count, the message containing the decimal forms of
both the clamped count and the raw image count, and succeeds otherwise; and
any failing call leaves the state (hence the stored count and all effective
dimensions) unchanged. -/
theorem setInterleavedChannelCount_spec (d : ImageState) (n : Nat) :
    (d.isOmeTiff = true → setInterleavedChannelCount d n = .error omeTiffRejectMsg) ∧
    (d.isOmeTiff = false →
      ((d.rawImageCount > 0 ∧ d.rawImageCount % (if n < 1 then 1 else n) ≠ 0) →
        setInterleavedChannelCount d n =
          .error (nonDivisorMsg (if n < 1 then 1 else n) d.rawImageCount)) ∧
      (¬ (d.rawImageCount > 0 ∧ d.rawImageCount % (if n < 1 then 1 else n) ≠ 0) →
        setInterleavedChannelCount d n =
          .ok (applyInterleavingInterpretation
            { d with interleavedChannels := if n < 1 then 1 else n }))) ∧
    (∃ a b g, nonDivisorMsg (if n < 1 then 1 else n) d.rawImageCount =
        a ++ toString (if n < 1 then 1 else n) ++ b ++ toString d.rawImageCount ++ g) ∧
    (∀ msg, setInterleavedChannelCount d n = .error msg →
      setInterleavedChannelCountState d n = d) := by
  have hcl1 : 1 ≤ (if n < 1 then 1 else n) := by split <;> omega
  refine ⟨?_, ?_, ?_, ?_⟩
  · intro h
    simp [setInterleavedChannelCount, h]
  · intro h
    constructor
    · rintro ⟨hm, hmod⟩
      have h1 : (if n < 1 then 1 else n) > 1 := by
        rcases Nat.lt_or_ge 1 (if n < 1 then 1 else n) with h4 | h4
        · exact h4
        · exfalso
          have heq : (if n < 1 then 1 else n) = 1 := le_antisymm h4 hcl1
          rw [heq, Nat.mod_one] at hmod
          exact hmod rfl
      simp only [setInterleavedChannelCount]
      rw [if_neg (by simp [h]), if_pos ⟨hm, h1, hmod⟩]
    · intro hno
      simp only [setInterleavedChannelCount]
      rw [if_neg (by simp [h]), if_neg]
      intro hc
      exact hno ⟨hc.1, hc.2.2⟩
  · exact ⟨"Interleaved channel count ", " does not divide evenly into image count ", "",
      by simp [nonDivisorMsg]⟩
  · intro msg hmsg
    simp [setInterleavedChannelCountState, hmsg]

/-- C4 witness: the OME rejection on an open OME-TIFF, and the unchanged
state after the non-divisor rejection of `setInterleavedChannelCount(5)` on
the 168-plane raw TIFF. -/
theorem setInterleavedChannelCount_spec_witness :
    setInterleavedChannelCount omeTiffOpenState 5 = .error omeTiffRejectMsg ∧
    setInterleavedChannelCountState rawTiff168 5 = rawTiff168 := by
  have hspec := setInterleavedChannelCount_spec rawTiff168 5
  have herr := (hspec.2.1 (by decide)).1 (by decide)
  exact ⟨(setInterleavedChannelCount_spec omeTiffOpenState 5).1 (by decide),
    hspec.2.2.2 _ herr⟩

/-- C5: when interleaving reinterpretation is active on a raw-TIFF source,
the save loop performs, for the `(z, c, t)` triples in `t`-major,
`z`-fastest order, one read of the raw plane `getPlaneIndex(z, c, t)` written
at the next sequential output index starting from 0; otherwise it copies
every physical plane `0..planeCount-1` to the same output index in order. -/
theorem saveWithMetadata_plane_order (d : ImageState)
    (ni : Nat → Nat → Nat → Nat → Nat → Nat) (readerImageCount : Nat) :
    ((¬ d.isOmeTiff ∧ d.interleavedChannels > 1) →
      planeWriteOps d ni readerImageCount =
        (tczTriples d).enum.map fun p =>
          (getPlaneIndexVal d ni p.2.1 p.2.2.1 p.2.2.2, p.1)) ∧
    (¬ (¬ d.isOmeTiff ∧ d.interleavedChannels > 1) →
      planeWriteOps d ni readerImageCount =
        (List.range readerImageCount).map fun i => (i, i)) := by
  constructor
  · intro h
    simp only [planeWriteOps, if_pos h]
    have hflat : (tczTriples d).foldl
        (fun st p => (st.1 + 1, st.2 ++ [(getPlaneIndexVal d ni p.1 p.2.1 p.2.2, st.1)]))
        ((0 : Nat), ([] : List (Nat × Nat))) =
      (List.range d.sizeT).foldl (fun st t =>
        (List.range d.sizeC).foldl (fun st c =>
          (List.range d.sizeZ).foldl (fun st z =>
            (st.1 + 1, st.2 ++ [(getPlaneIndexVal d ni z c t, st.1)])) st) st)
        ((0 : Nat), ([] : List (Nat × Nat))) := by
      rw [tczTriples, foldl_flatMap_eq]
      congr 1
      funext st t
      rw [foldl_flatMap_eq]
      congr 1
      funext st c
      rw [List.foldl_map]
    rw [← hflat, foldl_emit]
    simp [List.enum]
  · intro h
    simp only [planeWriteOps, if_neg h]
    rw [foldl_append_singleton]
    simp

/-- C5 witness: the reordering schedule on the interleaved 168-plane state
and the in-place copy on an open OME-TIFF. -/
theorem saveWithMetadata_plane_order_witness :
    (planeWriteOps rawTiff168v2 niZero 168 =
      (tczTriples rawTiff168v2).enum.map fun p =>
        (getPlaneIndexVal rawTiff168v2 niZero p.2.1 p.2.2.1 p.2.2.2, p.1)) ∧
    (planeWriteOps omeTiffOpenState niZero 2 = (List.range 2).map fun i => (i, i)) :=
  ⟨(saveWithMetadata_plane_order rawTiff168v2 niZero 168).1 (by decide),
   (saveWithMetadata_plane_order omeTiffOpenState niZero 2).2 (by decide)⟩

/-- C6: in the progress-reporting save loop, when the callback first answers
false after the `(k+1)`-st plane write, the loop stops promptly — exactly the
first `k+1` planes are written, none after — and the run is reported as
failed/cancelled (`false`), never as success. -/
theorem saveWithProgress_cancellation (cb : Nat → Nat → Bool) (planes : List Nat)
    (k : Nat) (hk : k < planes.length)
    (hfalse : cb (k + 1) planes.length = false)
    (htrue : ∀ j, j < k → cb (j + 1) planes.length = true) :
    saveWithProgress cb planes = (planes.take (k + 1), false) := by
  rw [saveWithProgress]
  exact writePlanesLoop_stops cb planes.length planes 0 k hk
    (by simpa using hfalse) (fun j hj => by simpa using htrue j hj)

/-- C6 witness: a callback that cancels after the second plane stops a
3-plane write after two planes with a failed result. -/
theorem saveWithProgress_cancellation_witness :
    saveWithProgress (fun cur _ => decide (cur < 2)) [10, 20, 30] = ([10, 20], false) := by
  have h := saveWithProgress_cancellation (fun cur _ => decide (cur < 2)) [10, 20, 30] 1
    (by decide) (by decide)
    (fun j hj => by
      have hj0 : j = 0 := by omega
      subst hj0
      decide)
  simpa using h

/-- C7 (amended): each cursor-switching operation saves only the decoder's
prior series — never the prior resolution — and restores it only on the
success path: on success the series returns to its prior value while the
resolution is left at the operation's own value; when the decoder throws
during a plane read or a dimension query, the cursor is left at the
operation's own series and resolution.  (The interleaved index path touches
the cursor not at all.) -/
theorem cursor_save_restore (d : ImageState) (ni : Nat → Nat → Nat → Nat → Nat → Nat)
    (readOk : Nat → Bool) (queryOk : Bool) (cur : ReaderState) (z c t pi : Nat)
    (hopen : d.readerOpen = true) :
    ((d.interleavedChannels > 1 ∧ ¬ d.isOmeTiff) →
      (getPlaneIndexRun d ni cur z c t).2 = cur) ∧
    (¬ (d.interleavedChannels > 1 ∧ ¬ d.isOmeTiff) →
      (getPlaneIndexRun d ni cur z c t).2 = ⟨cur.series, d.resolution⟩) ∧
    (readOk pi = true →
      (readPlaneByIndexCursor d readOk cur pi).1 = ⟨cur.series, d.resolution⟩) ∧
    (readOk pi = false →
      (readPlaneByIndexCursor d readOk cur pi).1 = ⟨d.series, d.resolution⟩) ∧
    (queryOk = true →
      (updateCachedDimensionsCursor d queryOk cur).1 = ⟨cur.series, d.resolution⟩) ∧
    (queryOk = false →
      (updateCachedDimensionsCursor d queryOk cur).1 = ⟨d.series, d.resolution⟩) := by
  refine ⟨?_, ?_, ?_, ?_, ?_, ?_⟩
  · intro h
    simp [getPlaneIndexRun, h]
  · intro h
    rw [getPlaneIndexRun, if_neg h]
  · intro h
    simp [readPlaneByIndexCursor, hopen, h]
  · intro h
    simp [readPlaneByIndexCursor, hopen, h]
  · intro h
    simp [updateCachedDimensionsCursor, hopen, h]
  · intro h
    simp [updateCachedDimensionsCursor, hopen, h]

/-- C7 witness: the theorem applied on concrete cursors: untouched cursor on
the interleaved path, series-only restore on a successful read, and the
operation's own cursor after a failing read. -/
theorem cursor_save_restore_witness :
    (getPlaneIndexRun rawTiff168v2 niZero ⟨3, 4⟩ 0 0 0).2 = ⟨3, 4⟩ ∧
    (readPlaneByIndexCursor omeTiffOpenState (fun _ => true) ⟨3, 4⟩ 0).1 =
      ⟨3, omeTiffOpenState.resolution⟩ ∧
    (readPlaneByIndexCursor omeTiffOpenState (fun _ => false) ⟨3, 4⟩ 0).1 =
      ⟨omeTiffOpenState.series, omeTiffOpenState.resolution⟩ :=
  ⟨(cursor_save_restore rawTiff168v2 niZero (fun _ => true) true ⟨3, 4⟩ 0 0 0 0
      (by decide)).1 (by decide),
   (cursor_save_restore omeTiffOpenState niZero (fun _ => true) true ⟨3, 4⟩ 0 0 0 0
      (by decide)).2.2.1 rfl,
   (cursor_save_restore omeTiffOpenState niZero (fun _ => false) true ⟨3, 4⟩ 0 0 0 0
      (by decide)).2.2.2.1 rfl⟩

/-- C7 counterexample: reading a plane on an open file whose decoder throws
leaves the decoder cursor at the operation's own series/resolution `(0, 0)`
instead of restoring the prior cursor `(1, 1)` — the error path does not
restore, refuting restoration on all exit paths. -/
theorem cursor_restore_counterexample :
    (readPlaneByIndexCursor omeTiffOpenState (fun _ => false) ⟨1, 1⟩ 0).1 ≠ ⟨1, 1⟩ := by
  decide

/-- C8 counterexample: a 1-by-1 16-bit unsigned plane whose every pixel is 5
converts to the same constant buffer `[5]`, not to the all-zero buffer the
claim demands. -/
theorem constant_uint16_not_zeroed :
    (convertUint16Plane 1 1 [5]).data = [5] ∧ (5 : Nat) ≠ 0 := by
  decide

/-- C8 (amended): 16-bit planes are never min/max-normalized — an all-`v`
unsigned 16-bit plane is copied unchanged (every output pixel equals `v`, so
the output is all-zero only when `v = 0`), and an all-`v` signed 16-bit plane
maps every pixel to `(v + 32768) mod 65536`; the all-zero-on-constant-plane
guarantee (taken without division) holds for the pixel types that are
min/max-normalized (uint32/int32/float/double). -/
theorem constant_plane_conversion (w h : Nat) (v : Nat) (vi : Int) (q : ℚ)
    (src : List Nat) (srci : List Int) (srcq : List ℚ)
    (hsrc : ∀ x ∈ src, x = v) (hsrci : ∀ x ∈ srci, x = vi)
    (hsrcq : ∀ x ∈ srcq, x = q) :
    (∀ x ∈ (convertUint16Plane w h src).data, x = v) ∧
    (∀ x ∈ (convertInt16Plane w h srci).data, x = ((vi + 32768) % 65536).toNat) ∧
    normalizeMinMaxToUint16 srcq = List.replicate srcq.length 0 := by
  refine ⟨?_, ?_, ?_⟩
  · intro x hx
    exact hsrc x (List.mem_of_mem_take hx)
  · intro x hx
    simp only [convertInt16Plane, List.mem_map] at hx
    obtain ⟨y, hy, hxy⟩ := hx
    rw [hsrci y (List.mem_of_mem_take hy)] at hxy
    exact hxy.symm
  · cases srcq with
    | nil => rfl
    | cons x xs =>
      have hx : x = q := hsrcq x (List.mem_cons_self _ _)
      have hmin : planeMin (x :: xs) = q := by
        rw [planeMin, hx]
        exact foldl_min_const q xs fun y hy => hsrcq y (List.mem_cons_of_mem x hy)
      have hmax : planeMax (x :: xs) = q := by
        rw [planeMax, hx]
        exact foldl_max_const q xs fun y hy => hsrcq y (List.mem_cons_of_mem x hy)
      rw [normalizeMinMaxToUint16]
      simp only [hmin, hmax, lt_self_iff_false, if_false]

/-- C8 witness: constant planes through the three conversion paths. -/
theorem constant_plane_conversion_witness :
    (∀ x ∈ (convertUint16Plane 2 1 [7, 7]).data, x = 7) ∧
    (∀ x ∈ (convertInt16Plane 2 1 [-5]).data, x = (((-5 : Int) + 32768) % 65536).toNat) ∧
    normalizeMinMaxToUint16 [3] = List.replicate ([3] : List ℚ).length 0 :=
  constant_plane_conversion 2 1 7 (-5) 3 [7, 7] [-5] [3]
    (by decide) (by decide) (by intro x hx; simpa using hx)

/-- C9: on a plane whose minimum `m` is strictly below its maximum `M`, the
float normalization emits `floor((value - m) * 65535 / (M - m))` for every
pixel; a pixel equal to `m` maps to 0 and a pixel equal to `M` maps to 65535
(the pixel arithmetic is modelled exactly over the rationals, the truncating
16-bit cast as the floor). -/
theorem float_rescale_endpoints (src : List ℚ) (i : Nat) (hi : i < src.length)
    (hlt : planeMin src < planeMax src) :
    (normalizeMinMaxToUint16 src)[i]? =
      some ⌊(src[i] - planeMin src) * (65535 / (planeMax src - planeMin src))⌋ ∧
    (src[i] = planeMin src → (normalizeMinMaxToUint16 src)[i]? = some 0) ∧
    (src[i] = planeMax src → (normalizeMinMaxToUint16 src)[i]? = some 65535) := by
  have hne : planeMax src - planeMin src ≠ 0 := sub_ne_zero.mpr (ne_of_gt hlt)
  have hform : (normalizeMinMaxToUint16 src)[i]? =
      some ⌊(src[i] - planeMin src) * (65535 / (planeMax src - planeMin src))⌋ := by
    rw [normalizeMinMaxToUint16]
    simp [hlt, List.getElem?_map, List.getElem?_eq_getElem hi]
  refine ⟨hform, ?_, ?_⟩
  · intro hmin
    rw [hform, hmin]
    simp
  · intro hmax
    rw [hform, hmax]
    rw [mul_comm, div_mul_cancel₀ _ hne]
    norm_num

/-- C9 witness: on the plane `[0, 1]` the maximal pixel rescales to 65535. -/
theorem float_rescale_endpoints_witness :
    (normalizeMinMaxToUint16 [0, 1])[1]? = some 65535 := by
  have hlt : planeMin [0, 1] < planeMax [0, 1] := by
    norm_num [planeMin, planeMax, List.foldl]
  have h := float_rescale_endpoints [0, 1] 1 (by norm_num) hlt
  exact h.2.2 (by norm_num [planeMax, List.foldl])

/-- C10: `close` clears the stored filename, resets the interleaved channel
count to 1 and zeroes the raw and effective X/Y/Z/T/C sizes and both image
counts; it is idempotent, so closing an already-closed handle preserves the
reset state; and since `open` begins by calling `close`, a successful open
produces a state independent of whatever interpretation state the handle
held before — in particular its interleaved channel count is 1. -/
theorem close_resets_interpretation (d d2 : ImageState) (f : String)
    (isOme : Bool) (rep : DecoderReport) :
    (close d).currentFilename = "" ∧
    (close d).interleavedChannels = 1 ∧
    (close d).rawSizeX = 0 ∧ (close d).rawSizeY = 0 ∧ (close d).rawSizeZ = 0 ∧
    (close d).rawSizeT = 0 ∧ (close d).rawSizeC = 0 ∧ (close d).rawImageCount = 0 ∧
    (close d).sizeX = 0 ∧ (close d).sizeY = 0 ∧ (close d).sizeZ = 0 ∧
    (close d).sizeT = 0 ∧ (close d).sizeC = 0 ∧ (close d).imageCount = 0 ∧
    close (close d) = close d ∧
    openFileSuccess d f isOme rep = openFileSuccess d2 f isOme rep ∧
    (openFileSuccess d f isOme rep).interleavedChannels = 1 := by
  refine ⟨rfl, rfl, rfl, rfl, rfl, rfl, rfl, rfl, rfl, rfl, rfl, rfl, rfl, rfl, rfl, ?_, ?_⟩
  · cases d; cases d2; rfl
  · rfl

end OMERewriter
